import Mathlib

/-!
Verification of the kdcproxy repository (an HTTP proxy for the Kerberos v5
wire protocols, per MS-KKDCP) against its natural-language specification.

Bytes are modelled as `Nat` (values < 256 on every real wire), byte strings
as `List Nat`, and Python text strings as `List Char`.  Python exceptions
are modelled with `Except`/`Option`.  Each definition is a direct
translation of the named function of the source tree.
-/

deriving instance DecidableEq for Except

namespace Kdcproxy

/-- Big-endian word from bytes: `struct.unpack("!I", ...)` /
`struct.unpack("!H", ...)` applied to an exact-length slice. -/
def u32be (l : List Nat) : Nat := l.foldl (fun a b => 256 * a + b) 0

/-- `Application.MAX_LENGTH = 128 * 1024` (kdcproxy/__init__.py). -/
def MAX_LENGTH : Nat := 128 * 1024

/-- Shared tail of `Application.__handle_recv` (kdcproxy/__init__.py, TCP
branch): with a buffer `buf` present (possibly just created empty), a
non-empty `part` is appended and `None` is returned; an empty `part` (EOF)
pops the buffer and returns its accumulated contents. -/
def bufferOrFinish (buf part : List Nat) : Option (List Nat) × Option (List Nat) :=
  if part = [] then (some buf, none) else (none, some (buf ++ part))

/-- `Application.__handle_recv` (kdcproxy/__init__.py lines 168-190), TCP
branch, as a transition on the per-socket entry of `read_buffers`
(`none` = no buffer yet).  Result: (reply returned, new buffer state).
On the first chunk, if `len(part) > 4` and the 4-byte big-endian prefix
satisfies `length + 4 == len(part)`, the chunk is returned whole (fast
path); otherwise an (empty) buffer is created and the common
accumulate-or-finish code runs.  Note the source performs no comparison
against `MAX_LENGTH` and no overrun check anywhere in this function. -/
def handleRecvTCP (bufState : Option (List Nat)) (part : List Nat) :
    Option (List Nat) × Option (List Nat) :=
  match bufState with
  | none =>
    if 4 < part.length then
      if u32be (part.take 4) + 4 = part.length then (some part, none)
      else bufferOrFinish [] part
    else bufferOrFinish [] part
  | some buf => bufferOrFinish buf part

end Kdcproxy

namespace Kdcproxy

/-- DER length bytes of `n`, big-endian with no leading zero
(the definite-length form emitted by pyasn1's DER encoder). -/
def bytesBE (n : Nat) : List Nat :=
  if n = 0 then [] else bytesBE (n / 256) ++ [n % 256]
decreasing_by exact Nat.div_lt_self (Nat.pos_of_ne_zero (by assumption)) (by norm_num)

/-- Big-endian value of a byte list (fold). -/
def natFromBE (l : List Nat) : Nat := l.foldl (fun a b => 256 * a + b) 0

/-- DER definite length encoding: short form below 128, else
`0x80 + k` followed by the `k` big-endian value bytes. -/
def derLen (n : Nat) : List Nat :=
  if n < 128 then [n] else (128 + (bytesBE n).length) :: bytesBE n

/-- DER definite length decoding, returning the length and the rest of
the input. -/
def derDecodeLen (l : List Nat) : Option (Nat × List Nat) :=
  match l with
  | [] => none
  | b :: rest =>
    if b < 128 then some (b, rest)
    else
      let k := b - 128
      if rest.length < k then none
      else some (natFromBE (rest.take k), rest.drop k)

/-- Parse one DER TLV whose (single-byte) tag must equal `tag`; return the
content octets and the remaining input.  This is the granularity at which
pyasn1's DER decoder is modelled: tag check, definite length, content
extraction. -/
def parseTLV (tag : Nat) : List Nat → Option (List Nat × List Nat)
  | [] => none
  | t :: rest =>
    if t = tag then
      match derDecodeLen rest with
      | some (n, r) => if n ≤ r.length then some (r.take n, r.drop n) else none
      | none => none
    else none

end Kdcproxy

namespace Kdcproxy

theorem natFromBE_append (l : List Nat) (x : Nat) :
    natFromBE (l ++ [x]) = 256 * natFromBE l + x := by
  simp [natFromBE, List.foldl_append]

theorem natFromBE_bytesBE (n : Nat) : natFromBE (bytesBE n) = n := by
  induction n using Nat.strong_induction_on with
  | _ n ih =>
    rw [bytesBE]
    by_cases h : n = 0
    · simp [h, natFromBE]
    · simp only [h, if_false]
      rw [natFromBE_append, ih (n / 256) (Nat.div_lt_self (Nat.pos_of_ne_zero h) (by norm_num))]
      omega

theorem bytesBE_length_le (k : Nat) : ∀ n, n < 256 ^ k → (bytesBE n).length ≤ k := by
  induction k with
  | zero =>
    intro n hn
    interval_cases n
    simp [bytesBE]
  | succ k ih =>
    intro n hn
    rw [bytesBE]
    by_cases h : n = 0
    · simp [h]
    · simp only [h, if_false, List.length_append, List.length_cons, List.length_nil]
      have : n / 256 < 256 ^ k := by
        rw [Nat.div_lt_iff_lt_mul (by norm_num)]
        calc n < 256 ^ (k + 1) := hn
        _ = 256 ^ k * 256 := by ring
      have := ih (n / 256) this
      omega

theorem derDecodeLen_derLen (n : Nat) (rest : List Nat)
    (h : (bytesBE n).length < 128) :
    derDecodeLen (derLen n ++ rest) = some (n, rest) := by
  rw [derLen]
  by_cases hn : n < 128
  · simp [hn, derDecodeLen]
  · have hne : bytesBE n ≠ [] := by
      intro he
      have := natFromBE_bytesBE n
      rw [he] at this
      simp [natFromBE] at this
      omega
    have hpos : 0 < (bytesBE n).length := List.length_pos.mpr hne
    simp only [hn, if_false, List.cons_append, derDecodeLen]
    have h128 : ¬ (128 + (bytesBE n).length < 128) := by omega
    simp only [h128, if_false]
    have hk : 128 + (bytesBE n).length - 128 = (bytesBE n).length := by omega
    rw [hk]
    have hlen : ¬ ((bytesBE n ++ rest).length < (bytesBE n).length) := by
      simp [List.length_append]
    simp only [hlen, if_false]
    rw [List.take_left, List.drop_left, natFromBE_bytesBE]

theorem parseTLV_encode (tag : Nat) (c rest : List Nat)
    (h : (bytesBE c.length).length < 128) :
    parseTLV tag (tag :: derLen c.length ++ (c ++ rest)) = some (c, rest) := by
  rw [List.cons_append, parseTLV]
  simp only [if_pos rfl]
  rw [derDecodeLen_derLen c.length (c ++ rest) h]
  have hle : c.length ≤ (c ++ rest).length := by simp [List.length_append]
  simp only [hle, if_pos]
  rw [List.take_left, List.drop_left]

end Kdcproxy

namespace Kdcproxy

/-- DER encoding of the `kerb-message [0] OCTET STRING` leaf, as produced
by pyasn1's DER encoder for `univ.OctetString`. -/
def encOctetString (data : List Nat) : List Nat := 0x04 :: derLen data.length ++ data

/-- DER explicit context tag [0] (constructed), wrapping one inner TLV. -/
def encExplicit0 (inner : List Nat) : List Nat := 0xa0 :: derLen inner.length ++ inner

/-- DER SEQUENCE wrapper. -/
def encSequence (content : List Nat) : List Nat := 0x30 :: derLen content.length ++ content

/-- `codec.encode` / `parse_pyasn1.encode_proxymessage`: build a
KDC-PROXY-MESSAGE with only the `message` component set and DER-encode
it: SEQUENCE { [0] { OCTET STRING data } }. -/
def encode (data : List Nat) : List Nat :=
  encSequence (encExplicit0 (encOctetString data))

/-- Optional `dclocator-hint [2] INTEGER` component at the end of the
SEQUENCE content (`rest`), followed by the end-of-SEQUENCE check of
pyasn1's decoder.  The INTEGER value octets are kept raw. -/
def parseOptFlags (msg : List Nat) (realmOpt : Option (List Nat)) (rest tail : List Nat) :
    Option ((List Nat × Option (List Nat) × Option (List Nat)) × List Nat) :=
  match rest with
  | [] => some ((msg, realmOpt, none), tail)
  | _ :: _ =>
    (parseTLV 0xa2 rest).bind fun w2r =>
    (parseTLV 0x02 w2r.1).bind fun flagsr =>
    if flagsr.2 ≠ [] ∨ w2r.2 ≠ [] then none
    else some ((msg, realmOpt, some flagsr.1), tail)

/-- Model of `decoder.decode(data, asn1Spec=ProxyMessage())` (pyasn1 DER):
KDC-PROXY-MESSAGE ::= SEQUENCE { kerb-message [0] OCTET STRING,
target-domain [1] Realm OPTIONAL, dclocator-hint [2] INTEGER OPTIONAL },
with EXPLICIT context tags (kdcproxy/asn1.py and kdcproxy/parse_pyasn1.py
define the identical structure).  Returns the decoded components and the
remaining substrate; `none` models a raised `PyAsn1Error`. -/
def derDecodeProxyMessage (data : List Nat) :
    Option ((List Nat × Option (List Nat) × Option (List Nat)) × List Nat) :=
  (parseTLV 0x30 data).bind fun ct =>
  (parseTLV 0xa0 ct.1).bind fun w0r =>
  (parseTLV 0x04 w0r.1).bind fun msgr =>
  if msgr.2 ≠ [] then none
  else
    match w0r.2 with
    | [] => some ((msgr.1, none, none), ct.2)
    | b :: rest0t =>
      if b = 0xa1 then
        (parseTLV 0xa1 (b :: rest0t)).bind fun w1r =>
        (parseTLV 0x1b w1r.1).bind fun realmr =>
        if realmr.2 ≠ [] then none
        else parseOptFlags msgr.1 (some realmr.1) w1r.2 ct.2
      else parseOptFlags msgr.1 none (b :: rest0t) ct.2

/-- Error outcomes of the request codec, distinguished by how
`Application.__call__` reacts: `parsingError` is `codec.ParsingError`
(caught at kdcproxy/__init__.py line 231, answered with HTTP 400);
`asn1Uncaught` is a `pyasn1` `PyAsn1Error` raised outside any handler in
`codec.ProxyRequest.parse`; `structUncaught` is a `struct.error` raised
by `struct.unpack` on a too-short slice.  The latter two are not
`ParsingError` and escape the WSGI application. -/
inductive PErr where
  | parsingError
  | asn1Uncaught
  | structUncaught
deriving DecidableEq

/-- `parse_pyasn1.decode_proxymessage`: DER-decode the envelope (ASN.1
errors become `ASN1ParsingError`, a `ParsingError`), reject trailing
bytes, and return (kerb-message, realm, flags). -/
def decode_proxymessage (data : List Nat) :
    Except PErr (List Nat × Option (List Nat) × Option (List Nat)) :=
  match derDecodeProxyMessage data with
  | none => .error .parsingError
  | some (v, tail) => if tail ≠ [] then .error .parsingError else .ok v

theorem parseTLV_enc (tag : Nat) (c : List Nat) (h : c.length < 16777216) :
    parseTLV tag (tag :: derLen c.length ++ c) = some (c, []) := by
  have h3 : c.length < 256 ^ 3 := by norm_num; omega
  have h128 : (bytesBE c.length).length < 128 :=
    lt_of_le_of_lt (bytesBE_length_le 3 c.length h3) (by norm_num)
  have := parseTLV_encode tag c [] h128
  simpa using this

theorem derLen_length_le (n : Nat) (h : n < 16777216) : (derLen n).length ≤ 4 := by
  have h3 : n < 256 ^ 3 := by norm_num; omega
  have := bytesBE_length_le 3 n h3
  rw [derLen]
  split
  · simp
  · simp only [List.length_cons]
    omega

end Kdcproxy

namespace Kdcproxy

/-- Claim C3 — for every byte sequence `b` with `len(b) ≤ 128 KiB`,
decoding (`parse_pyasn1.decode_proxymessage`) the envelope produced by
`codec.encode` yields the kerb-message `b` (together with absent realm
and flags, and no framing error): the encode-then-decode round trip of
the KDC-PROXY-MESSAGE codec. -/
theorem c3_encode_decode_roundtrip (b : List Nat) (hb : b.length ≤ MAX_LENGTH) :
    decode_proxymessage (encode b) = .ok (b, none, none) := by
  have hM : MAX_LENGTH = 131072 := by norm_num [MAX_LENGTH]
  have hb24 : b.length < 16777216 := by omega
  have hd1 : (derLen b.length).length ≤ 4 := derLen_length_le b.length hb24
  have hm5 : (encOctetString b).length ≤ b.length + 5 := by
    simp only [encOctetString, List.length_cons, List.length_append]
    omega
  have hmlen : (encOctetString b).length < 16777216 := by omega
  have hd2 : (derLen (encOctetString b).length).length ≤ 4 :=
    derLen_length_le (encOctetString b).length hmlen
  have hwlen : (encExplicit0 (encOctetString b)).length < 16777216 := by
    simp only [encExplicit0, List.length_cons, List.length_append]
    omega
  have e1 : parseTLV 0x30 (encode b) = some (encExplicit0 (encOctetString b), []) := by
    have := parseTLV_enc 0x30 (encExplicit0 (encOctetString b)) hwlen
    simpa [encode, encSequence] using this
  have e2 : parseTLV 0xa0 (encExplicit0 (encOctetString b)) = some (encOctetString b, []) := by
    have := parseTLV_enc 0xa0 (encOctetString b) hmlen
    simpa [encExplicit0] using this
  have e3 : parseTLV 0x04 (encOctetString b) = some (b, []) := by
    have := parseTLV_enc 0x04 b hb24
    simpa [encOctetString] using this
  simp [decode_proxymessage, derDecodeProxyMessage, e1, e2, e3]

/-- Witness for C3 at the spec's own example: the 8-byte message
`"RESPONSE"` (round-trips through `30 0c a0 0a 04 08 52 45 53 50 4f 4e
53 45`). -/
theorem c3_encode_decode_roundtrip_witness :
    decode_proxymessage (encode [82, 69, 83, 80, 79, 78, 83, 69]) =
      .ok ([82, 69, 83, 80, 79, 78, 83, 69], none, none) :=
  c3_encode_decode_roundtrip [82, 69, 83, 80, 79, 78, 83, 69] (by norm_num [MAX_LENGTH])

end Kdcproxy

namespace Kdcproxy

/-- `struct.unpack("!H", ...)` on an exact 2-byte slice. -/
def u16be (l : List Nat) : Nat := l.foldl (fun a b => 256 * a + b) 0

/-- Model of `decoder.decode(data, asn1Spec=T())` for the tag-only ASN.1
types of kdcproxy/asn1.py (ASREQ 0x6a, TGSREQ 0x6c, APREQ 0x6e, KRBPriv
0x75: APPLICATION-class constructed explicit tags over a SEQUENCE):
parse the outer TLV with the given tag byte, require its content to be a
single SEQUENCE TLV exactly filling it, and return the remaining
substrate.  Per the specification of these types, body contents beyond
the outer tags are not further validated.  `none` models `PyAsn1Error`. -/
def asnDecodeTagged (tag : Nat) (l : List Nat) : Option (List Nat) :=
  (parseTLV tag l).bind fun cr =>
  (parseTLV 0x30 cr.1).bind fun inner =>
  if inner.2 = [] then some cr.2 else none

/-- One subclass attempt of `ProxyRequest.parse`:
`decoder.decode(request[OFFSET:], asn1Spec=subcls.TYPE())`. -/
def tryTagged (tag offset : Nat) (request : List Nat) : Option (List Nat) :=
  asnDecodeTagged tag (request.drop offset)

/-- Which `ProxyRequest` subclass accepted the request
(`KPASSWDProxyRequest` also records the protocol version). -/
inductive KVariant where
  | asReq
  | tgsReq
  | kpasswdReq (version : Nat)
deriving DecidableEq

/-- The attributes a successfully parsed `ProxyRequest` carries. -/
structure KParsed where
  realm : List Nat
  request : List Nat
  variant : KVariant
deriving DecidableEq

/-- `ProxyRequest.__init__` (codec.py lines 69-76): store realm/request;
raise `ParsingError("... extra bytes")` when the subclass decode left
trailing substrate (`err`). -/
def finishPlain (v : KVariant) (realmB request err : List Nat) : Except PErr KParsed :=
  if err ≠ [] then .error .parsingError else .ok ⟨realmB, request, v⟩

/-- `KPASSWDProxyRequest` attempt: the gating decode of `request[10:]` as
AP-REQ done by the subclass loop, then `KPASSWDProxyRequest.__init__`
(codec.py lines 96-127): RFC 3244 length field, version (0x0001 or
0xff80), AP-REQ length bound, AP-REQ and KRB-PRIV decodes, and the
shared extra-bytes check on the KRB-PRIV remainder.  `none` means a
`PyAsn1Error` was raised (caught by the loop, which then falls through);
`some (.error ...)` means a `ParsingError` was raised (not caught). -/
def tryKpasswd (realmB request : List Nat) : Option (Except PErr KParsed) :=
  (asnDecodeTagged 0x6e (request.drop 10)).bind fun _ =>
  if u16be ((request.drop 4).take 2) ≠ request.length - 4 then some (.error .parsingError)
  else if ¬ (u16be ((request.drop 6).take 2) = 0x0001 ∨
             u16be ((request.drop 6).take 2) = 0xff80) then
    some (.error .parsingError)
  else
    let apLen := u16be ((request.drop 8).take 2)
    if request.length - 10 < apLen then some (.error .parsingError)
    else
      match asnDecodeTagged 0x6e ((request.drop 10).take apLen) with
      | none => none
      | some _ =>
        match asnDecodeTagged 0x75 (request.drop (10 + apLen)) with
        | none => none
        | some err =>
          if err ≠ [] then some (.error .parsingError)
          else some (.ok ⟨realmB, request, .kpasswdReq (u16be ((request.drop 6).take 2))⟩)

/-- The subclass loop of `ProxyRequest.parse` (codec.py lines 59-67), in
the source's subclass definition order `cls.__subclasses__() =
[TGSProxyRequest, ASProxyRequest, KPASSWDProxyRequest]` (codec.py lines
84, 88, 92): try each decode, return on the first whose gating decode
succeeds; `PyAsn1Error` moves to the next subclass; after the loop raise
`ParsingError("Invalid request.")`. -/
def classifySub (realmB request : List Nat) : Except PErr KParsed :=
  match tryTagged 0x6c 4 request with
  | some err => finishPlain .tgsReq realmB request err
  | none =>
    match tryTagged 0x6a 4 request with
    | some err => finishPlain .asReq realmB request err
    | none =>
      match tryKpasswd realmB request with
      | some res => res
      | none => .error .parsingError

/-- The same loop in the order the specification states it: AS-REQ at
offset 4, then TGS-REQ at offset 4, then KPASSWD-REQ, returning the
first that succeeds (spec §4.2 step 3).  Stated from the spec's words,
to be compared with `classifySub`. -/
def classifyClaimOrder (realmB request : List Nat) : Except PErr KParsed :=
  match tryTagged 0x6a 4 request with
  | some err => finishPlain .asReq realmB request err
  | none =>
    match tryTagged 0x6c 4 request with
    | some err => finishPlain .tgsReq realmB request err
    | none =>
      match tryKpasswd realmB request with
      | some res => res
      | none => .error .parsingError

/-- `codec.decode` = `ProxyRequest.parse` (codec.py lines 41-67): DER
decode of the envelope (a raised `PyAsn1Error` is NOT handled there),
trailing-bytes check, `realm` extraction (`.asOctets()` on an absent
optional component raises, unhandled), the 4-byte length-prefix framing
check (`struct.unpack` on fewer than 4 bytes raises `struct.error`,
unhandled), and the subclass loop. -/
def codecParse (data : List Nat) : Except PErr KParsed :=
  match derDecodeProxyMessage data with
  | none => .error .asn1Uncaught
  | some (v, err) =>
    if err ≠ [] then .error .parsingError
    else
      match v.2.1 with
      | none => .error .asn1Uncaught
      | some realmB =>
        if v.1.length < 4 then .error .structUncaught
        else if u32be (v.1.take 4) + 4 ≠ v.1.length then .error .parsingError
        else classifySub realmB v.1

/-- How `Application.__call__` disposes of the body parse (kdcproxy/
__init__.py lines 229-232): `codec.ParsingError` is answered with HTTP
400 ("Bad Request" with the exception's plain-text message); a parsed
request proceeds to resolution; any other exception propagates out of
the handler (the surrounding `try` catches only `HTTPException`). -/
inductive WsgiOutcome where
  | proceed (pr : KParsed)
  | resp400
  | uncaught
deriving DecidableEq

/-- The parse step of `Application.__call__` with its error disposition. -/
def appParseOutcome (body : List Nat) : WsgiOutcome :=
  match codecParse body with
  | .ok pr => .proceed pr
  | .error .parsingError => .resp400
  | .error .asn1Uncaught => .uncaught
  | .error .structUncaught => .uncaught

theorem tryTagged_none_of_head {b : Nat} {request rest : List Nat} (tag : Nat)
    (h : request.drop 4 = b :: rest) (hne : b ≠ tag) :
    tryTagged tag 4 request = none := by
  simp [tryTagged, asnDecodeTagged, h, parseTLV, hne]

end Kdcproxy

namespace Kdcproxy

/-- Claim C6 — on every well-framed proxy message the classifier behaves
as "attempt AS-REQ at offset 4, then TGS-REQ at offset 4, then
KPASSWD-REQ, and return the result of the first parser that succeeds;
if none succeeds fail with the unknown-request-type `ParsingError`":
the source's subclass loop (`classifySub`, which enumerates
`__subclasses__()` in definition order TGS, AS, KPASSWD) computes
exactly the function stated by the specification (`classifyClaimOrder`),
because the AS-REQ and TGS-REQ outer tags (0x6a vs 0x6c) are disjoint,
so at most one of the two can succeed on any input. -/
theorem c6_classifier_order (realmB request : List Nat) :
    classifySub realmB request = classifyClaimOrder realmB request := by
  cases hd : request.drop 4 with
  | nil =>
    have t1 : tryTagged 0x6c 4 request = none := by
      simp [tryTagged, asnDecodeTagged, hd, parseTLV]
    have t2 : tryTagged 0x6a 4 request = none := by
      simp [tryTagged, asnDecodeTagged, hd, parseTLV]
    simp [classifySub, classifyClaimOrder, t1, t2]
  | cons b rest =>
    rcases eq_or_ne b 0x6a with h6a | h6a
    · have t1 : tryTagged 0x6c 4 request = none :=
        tryTagged_none_of_head 0x6c hd (by rw [h6a]; norm_num)
      simp [classifySub, classifyClaimOrder, t1]
    · rcases eq_or_ne b 0x6c with h6c | h6c
      · have t2 : tryTagged 0x6a 4 request = none :=
          tryTagged_none_of_head 0x6a hd (by rw [h6c]; norm_num)
        simp [classifySub, classifyClaimOrder, t2]
      · have t1 : tryTagged 0x6c 4 request = none := tryTagged_none_of_head 0x6c hd h6c
        have t2 : tryTagged 0x6a 4 request = none := tryTagged_none_of_head 0x6a hd h6a
        simp [classifySub, classifyClaimOrder, t1, t2]

end Kdcproxy

namespace Kdcproxy

/-- Claim C1 — refuted by evaluation: not every body that fails to parse
is answered with HTTP 400; some parse failures escape as uncaught
exceptions.  The first conjunct shows that the 11-byte body
`30 09 a0 02 04 00 a1 03 1b 01 41` is a well-formed KDC-PROXY-MESSAGE
whose kerb-message is EMPTY (shorter than 4 bytes) with realm `"A"`; on
it `struct.unpack("!I", request[0:4])` raises `struct.error`, which is
not `codec.ParsingError` and therefore escapes `Application.__call__`
(second conjunct).  The third conjunct shows the empty body, on which
`decoder.decode` raises `PyAsn1Error`, likewise uncaught.  The last
conjunct shows the intended behaviour does occur for a framing mismatch
with at least 4 kerb-message bytes (HTTP 400). -/
theorem c1_short_message_escapes :
    derDecodeProxyMessage [0x30, 0x09, 0xa0, 0x02, 0x04, 0x00, 0xa1, 0x03, 0x1b, 0x01, 0x41] =
      some (([], some [0x41], none), [])
    ∧ appParseOutcome [0x30, 0x09, 0xa0, 0x02, 0x04, 0x00, 0xa1, 0x03, 0x1b, 0x01, 0x41] =
        .uncaught
    ∧ appParseOutcome [] = .uncaught
    ∧ appParseOutcome
        [0x30, 0x0d, 0xa0, 0x06, 0x04, 0x04, 0x00, 0x00, 0x00, 0x05,
         0xa1, 0x03, 0x1b, 0x01, 0x41] = .resp400 := by
  decide

/-- Claim C4 — refuted by evaluation (the repository's own tests
`test_tcp_message_length_exceeds_max` and
`test_tcp_message_data_exceeds_expected_length` assert a `ValueError`
here, so this is a code bug): `__handle_recv` rejects nothing.  A first
chunk `00 02 00 01` declaring 131073 > `MAX_LENGTH` bytes is silently
buffered and returned at EOF (conjuncts 1-3), and an accumulated payload
exceeding its declared length (prefix declares 0, one surplus byte) is
likewise buffered and returned at EOF rather than rejected (conjuncts
4-6). -/
theorem c4_no_framing_rejection :
    handleRecvTCP none [0x00, 0x02, 0x00, 0x01] = (none, some [0x00, 0x02, 0x00, 0x01])
    ∧ MAX_LENGTH < u32be [0x00, 0x02, 0x00, 0x01]
    ∧ handleRecvTCP (some [0x00, 0x02, 0x00, 0x01]) [] =
        (some [0x00, 0x02, 0x00, 0x01], none)
    ∧ handleRecvTCP none [0, 0, 0, 0, 88] = (none, some [0, 0, 0, 0, 88])
    ∧ handleRecvTCP (some [0, 0, 0, 0, 88]) [] = (some [0, 0, 0, 0, 88], none)
    ∧ u32be [0, 0, 0, 0] + 4 < 5 := by
  decide

/-- Claim C7, counterexample — the claim includes the boundary case of a
4-byte first chunk declaring length 0 (`len(chunk) ≥ 4`), but the source
tests `len(part) > 4` strictly, so `[0,0,0,0]` is NOT returned
immediately: it is buffered. -/
theorem c7_boundary_counterexample :
    handleRecvTCP none [0, 0, 0, 0] ≠ (some [0, 0, 0, 0], none)
    ∧ handleRecvTCP none [0, 0, 0, 0] = (none, some [0, 0, 0, 0]) := by
  decide

/-- Claim C7 as amended — the fast path requires strictly more than 4
bytes: for every first TCP chunk with `len(chunk) > 4` and
`u32_be(chunk[0..4]) + 4 == len(chunk)`, `__handle_recv` returns the
whole chunk immediately without buffering it (a 4-byte chunk declaring
length 0 is instead buffered; see the counterexample). -/
theorem c7_fast_path (part : List Nat) (h1 : 4 < part.length)
    (h2 : u32be (part.take 4) + 4 = part.length) :
    handleRecvTCP none part = (some part, none) := by
  simp [handleRecvTCP, h1, h2]

/-- Witness for the amended C7 at the 5-byte chunk `00 00 00 01 09`. -/
theorem c7_fast_path_witness :
    handleRecvTCP none [0, 0, 0, 1, 9] = (some [0, 0, 0, 1, 9], none) :=
  c7_fast_path [0, 0, 0, 1, 9] (by decide) (by decide)

/-- Disposition of the forwarding result in `Application.__call__`
(kdcproxy/__init__.py lines 320-325): `None` means all servers failed
(HTTP 503 "Remote unavailable", no Kerberos body); any byte string is a
success answered with HTTP 200 whose body is `codec.encode(reply)`. -/
def responseOf (reply : Option (List Nat)) : Nat × Option (List Nat) :=
  match reply with
  | none => (503, none)
  | some r => (200, some (encode r))

/-- Lines 311-315 of kdcproxy/__init__.py: the server that produced a
non-`None` reply is remembered via `mark_working`; on `None` it is
marked broken instead. -/
def markWorkingAfter (reply : Option (List Nat)) : Bool := reply.isSome

/-- Claim C10 — when the first TCP `recv` returns the empty string (the
upstream closed before sending anything), `__handle_recv` pops the
just-created empty buffer and returns `b""`; `b""` is not `None`, so the
engine treats it as a successful reply: the server is marked working and
the client receives HTTP 200 wrapping an empty kerb-message
(`30 04 a0 02 04 00`), not 503. -/
theorem c10_empty_reply_success :
    handleRecvTCP none [] = (some [], none)
    ∧ markWorkingAfter (some []) = true
    ∧ responseOf (some []) = (200, some [0x30, 0x04, 0xa0, 0x02, 0x04, 0x00])
    ∧ (responseOf (some [])).1 ≠ 503 := by
  decide

end Kdcproxy

namespace Kdcproxy

/-- `WorkingServerMap.reorder_servers` (kdcproxy/__init__.py lines
81-87): if the realm has a remembered good server, copy the list, call
`list.remove` on it (which removes the FIRST occurrence and raises
`ValueError` when the element is absent — modelled as `.error ()`), and
return the remembered server followed by the remainder; otherwise return
the list unchanged.  The map itself is modelled as the association list
`good` (`self.__good_servers`). -/
def reorder_servers (good : List (String × String)) (realm : String)
    (servers : List String) : Except Unit (List String) :=
  match List.lookup realm good with
  | some g => if g ∈ servers then .ok (g :: servers.erase g) else .error ()
  | none => .ok servers

/-- Claim C5, counterexample — with `"s"` remembered for realm `"R"` but
absent from the offered list `["t"]`, the claim demands the list back
unchanged; the source instead raises `ValueError` from `list.remove`. -/
theorem c5_reorder_counterexample :
    reorder_servers [("R", "s")] "R" ["t"] ≠ .ok ["t"]
    ∧ reorder_servers [("R", "s")] "R" ["t"] = .error () := by
  have h : reorder_servers [("R", "s")] "R" ["t"] = .error () := by rfl
  exact ⟨by simp [h], h⟩

/-- Claim C5 as amended — when no server is remembered for the realm the
list is returned unchanged; when the remembered server occurs in the
list it is moved to the front with the remaining elements in their
original order (first occurrence removed); but when a server is
remembered and absent from the list, `list.remove` raises `ValueError`
instead of returning the list unchanged. -/
theorem c5_reorder_servers (good : List (String × String)) (realm : String)
    (servers : List String) :
    (List.lookup realm good = none → reorder_servers good realm servers = .ok servers)
    ∧ (∀ g, List.lookup realm good = some g → g ∈ servers →
        reorder_servers good realm servers = .ok (g :: servers.erase g))
    ∧ (∀ g, List.lookup realm good = some g → g ∉ servers →
        reorder_servers good realm servers = .error ()) := by
  refine ⟨fun h => ?_, fun g hg hm => ?_, fun g hg hm => ?_⟩
  · simp [reorder_servers, h]
  · simp [reorder_servers, hg, hm]
  · simp [reorder_servers, hg, hm]

/-- Witness for the amended C5: remembered server `"s"` present in
`["t", "s"]` moves to the front. -/
theorem c5_reorder_servers_witness :
    reorder_servers [("R", "s")] "R" ["t", "s"] = .ok ["s", "t"] := by
  have h := (c5_reorder_servers [("R", "s")] "R" ["t", "s"]).2.1 "s" (by decide)
    (by decide)
  simpa using h

end Kdcproxy

namespace Kdcproxy

/-- Python `realm.split('.')`: split on every dot; adjacent dots and
edge dots give empty labels; the empty string gives `[""]`. -/
def splitDot : List Char → List (List Char)
  | [] => [[]]
  | c :: cs =>
    match splitDot cs with
    | [] => [[]]
    | h :: t => if c = '.' then [] :: h :: t else (c :: h) :: t

/-- Python `'.'.join(labels)`. -/
def joinDot : List (List Char) → List Char
  | [] => []
  | [x] => x
  | x :: y :: r => x ++ '.' :: joinDot (y :: r)

/-- The wildcard rules `'*' + '.'.join(realm_labels[i:])` enumerated by
`KDCProxyConfig.realm_configured` and `KDCProxyConfig.param`
(kdcproxy/config/__init__.py lines 158-163 and 179-184), for
`i in range(len(realm_labels))`. -/
def realmRules (realm : List Char) : List (List Char) :=
  (List.range (splitDot realm).length).map (fun i => '*' :: joinDot ((splitDot realm).drop i))

/-- The dot-joined label suffixes of a label list, one per start index. -/
def sufList (L : List (List Char)) : List (List Char) :=
  (List.range L.length).map (fun i => joinDot (L.drop i))

/-- Structural recursion computing the dot-joined label suffixes of a
character list directly (head is the whole string; after each dot the
remaining suffix is also collected). -/
def suffixesRec : List Char → List (List Char)
  | [] => [[]]
  | c :: cs =>
    if c = '.' then (c :: cs) :: suffixesRec cs
    else
      match suffixesRec cs with
      | [] => [c :: cs]
      | _ :: t => (c :: cs) :: t

theorem splitDot_ne_nil (s : List Char) : splitDot s ≠ [] := by
  cases s with
  | nil => simp [splitDot]
  | cons c cs =>
    cases hrec : splitDot cs with
    | nil => simp [splitDot, hrec]
    | cons h t =>
      simp only [splitDot, hrec]
      split <;> simp

theorem splitDot_cons (c : Char) (cs h : List Char) (t : List (List Char))
    (hr : splitDot cs = h :: t) :
    splitDot (c :: cs) = if c = '.' then [] :: h :: t else (c :: h) :: t := by
  simp only [splitDot, hr]

theorem joinDot_cons (x : List Char) (M : List (List Char)) (hM : M ≠ []) :
    joinDot (x :: M) = x ++ '.' :: joinDot M := by
  cases M with
  | nil => exact absurd rfl hM
  | cons y r => rfl

theorem suffixesRec_dot (cs : List Char) :
    suffixesRec ('.' :: cs) = ('.' :: cs) :: suffixesRec cs := by
  simp [suffixesRec]

theorem suffixesRec_ne (c : Char) (cs : List Char) (hc : c ≠ '.') (hh : List Char)
    (tt : List (List Char)) (hr : suffixesRec cs = hh :: tt) :
    suffixesRec (c :: cs) = (c :: cs) :: tt := by
  simp only [suffixesRec]
  rw [if_neg hc, hr]

theorem suffixesRec_shape (s : List Char) : ∃ t, suffixesRec s = s :: t := by
  cases s with
  | nil => exact ⟨[], rfl⟩
  | cons c cs =>
    by_cases hc : c = '.'
    · subst hc
      exact ⟨suffixesRec cs, suffixesRec_dot cs⟩
    · cases hrec : suffixesRec cs with
      | nil =>
        refine ⟨[], ?_⟩
        simp only [suffixesRec]
        rw [if_neg hc, hrec]
      | cons hh tt => exact ⟨tt, suffixesRec_ne c cs hc hh tt hrec⟩

theorem joinDot_splitDot (s : List Char) : joinDot (splitDot s) = s := by
  induction s with
  | nil => rfl
  | cons c cs ih =>
    cases hrec : splitDot cs with
    | nil => exact absurd hrec (splitDot_ne_nil cs)
    | cons h t =>
      rw [hrec] at ih
      rw [splitDot_cons c cs h t hrec]
      by_cases hc : c = '.'
      · rw [if_pos hc, joinDot_cons [] (h :: t) (by simp), ih, hc]
        rfl
      · rw [if_neg hc]
        cases t with
        | nil =>
          simp only [joinDot] at ih ⊢
          rw [ih]
        | cons y r =>
          rw [joinDot_cons (c :: h) (y :: r) (by simp)]
          rw [joinDot_cons h (y :: r) (by simp)] at ih
          rw [List.cons_append, ih]

theorem sufList_cons (h : List Char) (t : List (List Char)) :
    sufList (h :: t) = joinDot (h :: t) :: sufList t := by
  simp only [sufList, List.length_cons, List.range_succ_eq_map, List.map_cons,
    List.map_map, List.drop_zero]
  congr 1

theorem sufList_splitDot (s : List Char) : sufList (splitDot s) = suffixesRec s := by
  induction s with
  | nil => decide
  | cons c cs ih =>
    cases hrec : splitDot cs with
    | nil => exact absurd hrec (splitDot_ne_nil cs)
    | cons h t =>
      rw [hrec] at ih
      have hj2 : joinDot (h :: t) = cs := by rw [← hrec, joinDot_splitDot]
      have hsr : suffixesRec cs = cs :: sufList t := by rw [← ih, sufList_cons, hj2]
      rw [splitDot_cons c cs h t hrec]
      by_cases hc : c = '.'
      · rw [if_pos hc, sufList_cons]
        have hjoin : joinDot ([] :: h :: t) = c :: cs := by
          rw [joinDot_cons [] (h :: t) (by simp), hj2, hc]
          rfl
        rw [hjoin, ih, hc, suffixesRec_dot]
      · rw [if_neg hc, sufList_cons]
        have hjoin : joinDot ((c :: h) :: t) = c :: cs := by
          cases t with
          | nil =>
            simp only [joinDot] at hj2 ⊢
            rw [hj2]
          | cons y r =>
            rw [joinDot_cons (c :: h) (y :: r) (by simp)]
            rw [joinDot_cons h (y :: r) (by simp)] at hj2
            rw [List.cons_append, hj2]
        rw [hjoin, suffixesRec_ne c cs hc cs (sufList t) hsr]

theorem length_le_of_mem_suffixesRec (s : List Char) :
    ∀ x ∈ suffixesRec s, x.length ≤ s.length := by
  induction s with
  | nil =>
    intro x hx
    simp only [suffixesRec, List.mem_singleton] at hx
    simp [hx]
  | cons c cs ih =>
    intro x hx
    by_cases hc : c = '.'
    · subst hc
      rw [suffixesRec_dot] at hx
      rcases List.mem_cons.mp hx with h | h
      · simp [h]
      · have := ih x h
        simp only [List.length_cons]
        omega
    · obtain ⟨t2, ht2⟩ := suffixesRec_shape cs
      rw [suffixesRec_ne c cs hc cs t2 ht2] at hx
      rcases List.mem_cons.mp hx with h | h
      · simp [h]
      · have hmem : x ∈ suffixesRec cs := by
          rw [ht2]
          exact List.mem_cons_of_mem _ h
        have := ih x hmem
        simp only [List.length_cons]
        omega

theorem length_lt_of_mem_tail_suffixesRec (s : List Char) :
    ∀ x ∈ (suffixesRec s).tail, x.length < s.length := by
  induction s with
  | nil =>
    intro x hx
    simp only [suffixesRec, List.tail_cons] at hx
    simp at hx
  | cons c cs ih =>
    intro x hx
    by_cases hc : c = '.'
    · subst hc
      rw [suffixesRec_dot, List.tail_cons] at hx
      have := length_le_of_mem_suffixesRec cs x hx
      simp only [List.length_cons]
      omega
    · obtain ⟨t2, ht2⟩ := suffixesRec_shape cs
      rw [suffixesRec_ne c cs hc cs t2 ht2, List.tail_cons] at hx
      have hx2 : x ∈ (suffixesRec cs).tail := by
        rw [ht2]
        exact hx
      have := ih x hx2
      simp only [List.length_cons]
      omega

theorem mem_suffixesRec (s x : List Char) :
    x ∈ suffixesRec s ↔ (x = s ∨ ('.' :: x) <:+ s) := by
  induction s with
  | nil =>
    simp only [suffixesRec, List.mem_singleton, List.suffix_nil]
    constructor
    · intro h
      exact Or.inl h
    · rintro (h | h)
      · exact h
      · exact absurd h (by simp)
  | cons c cs ih =>
    by_cases hc : c = '.'
    · subst hc
      rw [suffixesRec_dot, List.mem_cons, ih, List.suffix_cons_iff]
      constructor
      · rintro (h | h | h)
        · exact Or.inl h
        · exact Or.inr (Or.inl (by rw [h]))
        · exact Or.inr (Or.inr h)
      · rintro (h | h | h)
        · exact Or.inl h
        · refine Or.inr (Or.inl ?_)
          injection h with _ h2
        · exact Or.inr (Or.inr h)
    · obtain ⟨t2, ht2⟩ := suffixesRec_shape cs
      rw [suffixesRec_ne c cs hc cs t2 ht2, List.mem_cons, List.suffix_cons_iff]
      have hhead : ¬ (('.' : Char) :: x = c :: cs) := by
        intro h
        injection h with h1 _
        exact hc h1.symm
      have key : x ∈ t2 ↔ ('.' :: x) <:+ cs := by
        constructor
        · intro h
          have hmem : x ∈ suffixesRec cs := by
            rw [ht2]
            exact List.mem_cons_of_mem _ h
          rcases ih.mp hmem with h2 | h2
          · exfalso
            have hlt := length_lt_of_mem_tail_suffixesRec cs x (by rw [ht2]; exact h)
            rw [h2] at hlt
            omega
          · exact h2
        · intro h
          have hmem : x ∈ suffixesRec cs := ih.mpr (Or.inr h)
          rw [ht2, List.mem_cons] at hmem
          rcases hmem with h2 | h2
          · exfalso
            subst h2
            have := h.length_le
            simp only [List.length_cons] at this
            omega
          · exact h2
      rw [key]
      constructor
      · rintro (h | h)
        · exact Or.inl h
        · exact Or.inr (Or.inr h)
      · rintro (h | h | h)
        · exact Or.inl h
        · exact absurd h hhead
        · exact Or.inr h

theorem suffixesRec_pairwise (s : List Char) :
    (suffixesRec s).Pairwise (fun a b => b.length < a.length) := by
  induction s with
  | nil => simp [suffixesRec]
  | cons c cs ih =>
    by_cases hc : c = '.'
    · subst hc
      rw [suffixesRec_dot, List.pairwise_cons]
      refine ⟨fun y hy => ?_, ih⟩
      have := length_le_of_mem_suffixesRec cs y hy
      simp only [List.length_cons]
      omega
    · obtain ⟨t2, ht2⟩ := suffixesRec_shape cs
      rw [suffixesRec_ne c cs hc cs t2 ht2, List.pairwise_cons]
      constructor
      · intro y hy
        have := length_lt_of_mem_tail_suffixesRec cs y (by rw [ht2]; exact hy)
        simp only [List.length_cons]
        omega
      · have h2 := ih
        rw [ht2, List.pairwise_cons] at h2
        exact h2.2

theorem realmRules_eq (realm : List Char) :
    realmRules realm = (suffixesRec realm).map (fun x => '*' :: x) := by
  rw [← sufList_splitDot]
  simp [realmRules, sufList, List.map_map]

theorem mem_realmRules (realm x : List Char) :
    ('*' :: x) ∈ realmRules realm ↔ (x = realm ∨ ('.' :: x) <:+ realm) := by
  rw [realmRules_eq, ← mem_suffixesRec]
  constructor
  · intro h
    rcases List.mem_map.mp h with ⟨y, hy, he⟩
    injection he with _ h2
    exact h2 ▸ hy
  · intro h
    exact List.mem_map.mpr ⟨x, h, rfl⟩

end Kdcproxy

namespace Kdcproxy

/-- A value stored in a `KDCProxyConfig` section dict: boolean parameters
(parsed with `getboolean`) or whitespace-split server URI tuples (the
`kerberos` / `kpasswd` keys). -/
inductive Val where
  | b (v : Bool)
  | servers (l : List String)
deriving DecidableEq

/-- One section of `self.__config`: a dict from parameter name to value
(association list; Python dict keys are unique, lookup takes the first
match). -/
abbrev Sect := List (List Char × Val)

/-- `KDCProxyConfig.__config`: a dict from section name (the literal
`global`, an exact realm, or a `*`-prefixed wildcard) to its section. -/
abbrev KConfig := List (List Char × Sect)

/-- Python dict lookup (`d[k]` / `k in d` / `d.get(k)`). -/
def getA {β : Type} : List (List Char × β) → List Char → Option β
  | [], _ => none
  | (k, v) :: r, key => if key = k then some v else getA r key

/-- The reserved section name `KDCProxyConfig.GLOBAL`. -/
def GLOBAL : List Char := "global".toList

/-- The two `ValueError`s of kdcproxy/config/__init__.py:
`__global_forbidden` (realm named `global`) and the unknown-parameter
error at the end of `param`. -/
inductive CfgErr where
  | globalRealm
  | unknownParam
deriving DecidableEq

/-- `KDCProxyConfig.realm_configured` (kdcproxy/config/__init__.py lines
148-164): forbid `global`, then: true iff the exact realm is a section,
or some rule `'*' + '.'.join(realm_labels[i:])` is a section. -/
def realm_configured (config : KConfig) (realm : List Char) : Except CfgErr Bool :=
  if realm = GLOBAL then .error .globalRealm
  else .ok ((getA config realm).isSome ||
    (realmRules realm).any (fun rule => (getA config rule).isSome))

end Kdcproxy

namespace Kdcproxy

/-- Claim C8 — a wildcard section `*SUFFIX` makes `realm_configured(R)`
true exactly when `R == SUFFIX` or `R` ends with `.SUFFIX` at a label
boundary.  (The hypotheses keep `R` away from the reserved name `global`
and from the degenerate case where `R` is literally the section name
`*SUFFIX`, which would be an exact-section match instead.)  In
particular `MYEXAMPLE.COM` does not match `[*EXAMPLE.COM]` while
`FOO.EXAMPLE.COM` does — see the witness. -/
theorem c8_wildcard_section_matching (realm sfx : List Char)
    (hg : realm ≠ GLOBAL) (hx : realm ≠ '*' :: sfx) :
    (realm_configured [('*' :: sfx, ([] : Sect))] realm = .ok true ↔
      (realm = sfx ∨ ('.' :: sfx) <:+ realm)) := by
  rw [realm_configured, if_neg hg]
  have hA : getA [('*' :: sfx, ([] : Sect))] realm = none := by
    simp [getA, hx]
  simp only [Except.ok.injEq, hA, Option.isSome_none, Bool.false_or, List.any_eq_true]
  constructor
  · rintro ⟨rule, hrule, hsome⟩
    have heq : rule = '*' :: sfx := by
      by_contra hne
      simp [getA, hne] at hsome
    subst heq
    rcases (mem_realmRules realm sfx).mp hrule with h | h
    · exact Or.inl h.symm
    · exact Or.inr h
  · intro h
    refine ⟨'*' :: sfx, (mem_realmRules realm sfx).mpr ?_, by simp [getA]⟩
    rcases h with h | h
    · exact Or.inl h.symm
    · exact Or.inr h

/-- Witness for C8: with only the section `[*EXAMPLE.COM]`,
`FOO.EXAMPLE.COM` is configured (via the theorem, label-boundary suffix)
and `MYEXAMPLE.COM` is not. -/
theorem c8_wildcard_section_matching_witness :
    realm_configured [('*' :: "EXAMPLE.COM".toList, ([] : Sect))]
        "FOO.EXAMPLE.COM".toList = .ok true
    ∧ realm_configured [('*' :: "EXAMPLE.COM".toList, ([] : Sect))]
        "MYEXAMPLE.COM".toList = .ok false := by
  constructor
  · exact (c8_wildcard_section_matching "FOO.EXAMPLE.COM".toList "EXAMPLE.COM".toList
      (by decide) (by decide)).mpr (Or.inr (by decide))
  · decide

end Kdcproxy

namespace Kdcproxy

/-- `KDCProxyConfig.GENERAL_PARAMS` built-in defaults. -/
def GENERAL_PARAMS : Sect :=
  [("use_dns".toList, Val.b true), ("silence_port_warn".toList, Val.b false)]

/-- `KDCProxyConfig.GLOBAL_PARAMS` built-in defaults. -/
def GLOBAL_PARAMS : Sect := [("dns_realm_discovery".toList, Val.b false)]

/-- `param in self.__config.get(sec, {})` followed by
`self.__config[sec][param]`. -/
def getp (config : KConfig) (sec name : List Char) : Option Val :=
  (getA config sec).bind (fun s => getA s name)

/-- The realm-independent tail of `KDCProxyConfig.param`
(kdcproxy/config/__init__.py lines 186-198): the `global` section, then
the `GENERAL_PARAMS` defaults, then the `GLOBAL_PARAMS` defaults, then
`ValueError` for an unknown parameter. -/
def paramFallback (config : KConfig) (name : List Char) : Except CfgErr Val :=
  match getp config GLOBAL name with
  | some v => .ok v
  | none =>
    match getA GENERAL_PARAMS name with
    | some v => .ok v
    | none =>
      match getA GLOBAL_PARAMS name with
      | some v => .ok v
      | none => .error .unknownParam

/-- `KDCProxyConfig.param` (kdcproxy/config/__init__.py lines 166-198):
forbid realm `global`; with a realm, try the exact section, then the
wildcard rules `'*' + '.'.join(labels[i:])` for increasing `i` (the
first rule whose section defines the parameter wins); then fall back to
the realm-independent tiers.  `None` as realm goes straight to the
fallback tiers. -/
def param (config : KConfig) (realmOpt : Option (List Char)) (name : List Char) :
    Except CfgErr Val :=
  if realmOpt = some GLOBAL then .error .globalRealm
  else
    match realmOpt with
    | some r =>
      match getp config r name with
      | some v => .ok v
      | none =>
        match (realmRules r).findSome? (fun rule => getp config rule name) with
        | some v => .ok v
        | none => paramFallback config name
    | none => paramFallback config name

theorem findSome_map {α β γ : Type} (g : α → β) (f : β → Option γ) :
    ∀ l : List α, (l.map g).findSome? f = l.findSome? (fun a => f (g a)) := by
  intro l
  induction l with
  | nil => rfl
  | cons a t ih =>
    rw [List.map_cons, List.findSome?_cons, List.findSome?_cons]
    cases hfa : f (g a) <;> simp [hfa, ih]

theorem findSome_first {α β : Type} (f : α → Option β) (m : α → Nat) :
    ∀ L : List α, L.Pairwise (fun a b => m b < m a) →
    ∀ x v, x ∈ L → f x = some v →
    (∀ y w, y ∈ L → f y = some w → m y ≤ m x) →
    L.findSome? f = some v := by
  intro L
  induction L with
  | nil =>
    intro _ x v hx
    exact absurd hx (List.not_mem_nil x)
  | cons a t ih =>
    intro hpw x v hx hfx hbound
    cases hfa : f a with
    | some w =>
      rw [List.findSome?_cons, hfa]
      rcases List.mem_cons.mp hx with hxa | hxt
      · subst hxa
        rw [hfa] at hfx
        exact hfx
      · exfalso
        have hma := (List.pairwise_cons.mp hpw).1 x hxt
        have := hbound a w (List.mem_cons_self a t) hfa
        omega
    | none =>
      rw [List.findSome?_cons, hfa]
      rcases List.mem_cons.mp hx with hxa | hxt
      · subst hxa
        rw [hfa] at hfx
        exact absurd hfx (by simp)
      · exact ih (List.pairwise_cons.mp hpw).2 x v hxt hfx
          (fun y w hy hfy => hbound y w (List.mem_cons_of_mem a hy) hfy)

theorem findSome_none {α β : Type} (f : α → Option β) :
    ∀ L : List α, (∀ x ∈ L, f x = none) → L.findSome? f = none := by
  intro L
  induction L with
  | nil => intro _; rfl
  | cons a t ih =>
    intro h
    rw [List.findSome?_cons, h a (List.mem_cons_self a t)]
    exact ih (fun x hx => h x (List.mem_cons_of_mem a hx))

end Kdcproxy

namespace Kdcproxy

/-- Claim C9 — `param` precedence: (1) a value in the exact realm section
wins; (2) otherwise, among the wildcard sections that match the realm
(`SUFFIX = R` or `R` ends in `.SUFFIX`) and define the parameter, the
one with the longest suffix supplies the value; (3) with no per-realm
hit, the realm-independent fallback runs, which is (4) the `global`
section, else (5) the `GENERAL_PARAMS` default, else (6) the
`GLOBAL_PARAMS` default, else (7) the unknown-parameter `ValueError`;
and (8) passing `None` as the realm skips the per-realm tiers entirely:
the result depends only on the `global` section. -/
theorem c9_param_precedence (config : KConfig) (r name : List Char) (hg : r ≠ GLOBAL) :
    (∀ v, getp config r name = some v → param config (some r) name = .ok v)
    ∧ (∀ sfx v, getp config r name = none →
        (sfx = r ∨ ('.' :: sfx) <:+ r) →
        getp config ('*' :: sfx) name = some v →
        (∀ sfx2 v2, (sfx2 = r ∨ ('.' :: sfx2) <:+ r) →
          getp config ('*' :: sfx2) name = some v2 → sfx2.length ≤ sfx.length) →
        param config (some r) name = .ok v)
    ∧ (getp config r name = none →
        (∀ sfx, (sfx = r ∨ ('.' :: sfx) <:+ r) → getp config ('*' :: sfx) name = none) →
        param config (some r) name = paramFallback config name)
    ∧ (∀ v, getp config GLOBAL name = some v → paramFallback config name = .ok v)
    ∧ (getp config GLOBAL name = none → ∀ v, getA GENERAL_PARAMS name = some v →
        paramFallback config name = .ok v)
    ∧ (getp config GLOBAL name = none → getA GENERAL_PARAMS name = none →
        ∀ v, getA GLOBAL_PARAMS name = some v → paramFallback config name = .ok v)
    ∧ (getp config GLOBAL name = none → getA GENERAL_PARAMS name = none →
        getA GLOBAL_PARAMS name = none →
        paramFallback config name = .error .unknownParam)
    ∧ (∀ config2 : KConfig, getA config GLOBAL = getA config2 GLOBAL →
        param config none name = param config2 none name) := by
  have hwild : ∀ (hnone : getp config r name = none),
      param config (some r) name =
        match (realmRules r).findSome? (fun rule => getp config rule name) with
        | some v => .ok v
        | none => paramFallback config name := by
    intro hnone
    simp [param, Option.some.injEq, hg, hnone]
  refine ⟨?_, ?_, ?_, ?_, ?_, ?_, ?_, ?_⟩
  · intro v hv
    simp [param, Option.some.injEq, hg, hv]
  · intro sfx v hnone hmatch hsome hbound
    have hfind : (realmRules r).findSome? (fun rule => getp config rule name) = some v := by
      rw [realmRules_eq, findSome_map]
      exact findSome_first (fun S => getp config ('*' :: S) name) List.length
        (suffixesRec r) (suffixesRec_pairwise r) sfx v
        ((mem_suffixesRec r sfx).mpr hmatch) hsome
        (fun y w hy hfy => hbound y w ((mem_suffixesRec r y).mp hy) hfy)
    rw [hwild hnone, hfind]
  · intro hnone hall
    have hfind : (realmRules r).findSome? (fun rule => getp config rule name) = none := by
      rw [realmRules_eq, findSome_map]
      exact findSome_none _ _ (fun S hS => hall S ((mem_suffixesRec r S).mp hS))
    rw [hwild hnone, hfind]
  · intro v hv
    simp [paramFallback, hv]
  · intro hnone v hv
    simp [paramFallback, hnone, hv]
  · intro hnone hgen v hv
    simp [paramFallback, hnone, hgen, hv]
  · intro hnone hgen hglob
    simp [paramFallback, hnone, hgen, hglob]
  · intro config2 hgeq
    have hgp : getp config GLOBAL name = getp config2 GLOBAL name := by
      simp [getp, hgeq]
    simp only [param, paramFallback, hgp]

/-- Witness for C9: the realm `FOO.SUB.EXAMPLE.COM` has no exact section;
both `[*EXAMPLE.COM]` (suffix length 11, `use_dns = true`) and
`[*SUB.EXAMPLE.COM]` (suffix length 15, `use_dns = false`) match; the
longer suffix wins, so `param` returns `false`. -/
theorem c9_param_precedence_witness :
    param [('*' :: "EXAMPLE.COM".toList, [("use_dns".toList, Val.b true)]),
           ('*' :: "SUB.EXAMPLE.COM".toList, [("use_dns".toList, Val.b false)])]
      (some "FOO.SUB.EXAMPLE.COM".toList) "use_dns".toList = .ok (Val.b false) := by
  refine (c9_param_precedence
    [('*' :: "EXAMPLE.COM".toList, [("use_dns".toList, Val.b true)]),
     ('*' :: "SUB.EXAMPLE.COM".toList, [("use_dns".toList, Val.b false)])]
    "FOO.SUB.EXAMPLE.COM".toList "use_dns".toList (by decide)).2.1
    "SUB.EXAMPLE.COM".toList (Val.b false) (by decide) (Or.inr (by decide)) (by decide) ?_
  intro sfx2 v2 _ hgp
  by_cases h1 : ('*' :: sfx2) = '*' :: "EXAMPLE.COM".toList
  · injection h1 with _ h2
    rw [h2]
    decide
  · by_cases h2 : ('*' :: sfx2) = '*' :: "SUB.EXAMPLE.COM".toList
    · injection h2 with _ h3
      rw [h3]
    · exfalso
      have hA : getA [('*' :: "EXAMPLE.COM".toList, [("use_dns".toList, Val.b true)]),
          ('*' :: "SUB.EXAMPLE.COM".toList, [("use_dns".toList, Val.b false)])]
          ('*' :: sfx2) = none := by
        simp only [getA]
        rw [if_neg h1, if_neg h2]
      rw [getp, hA] at hgp
      simp at hgp

end Kdcproxy

namespace Kdcproxy

/-- Python truthiness of a config value (`if value:` / `and` / `or`). -/
def Val.truthy : Val → Bool
  | .b v => v
  | .servers l => !l.isEmpty

/-- A config value iterated as a server tuple (`KDCProxyConfig.lookup`
returns the stored tuple, or `()`; only `.servers` values are stored
under the `kerberos`/`kpasswd` keys by the constructor). -/
def Val.asServers : Val → List String
  | .servers l => l
  | .b _ => []

/-- Service name `SRV_KRB = 'kerberos'`. -/
def SRV_KRB : List Char := "kerberos".toList

/-- Service name `SRV_KPWD = 'kpasswd'`. -/
def SRV_KPWD : List Char := "kpasswd".toList

/-- `KDCProxyConfig.lookup` (kdcproxy/config/__init__.py lines 140-146):
forbid `global`; return the exact realm section's service tuple, else
the empty tuple.  Wildcard sections never contribute servers (the
constructor only stores service tuples for non-`*` sections). -/
def cfg_lookup (config : KConfig) (realm : List Char) (kpasswd : Bool) :
    Except CfgErr Val :=
  if realm = GLOBAL then .error .globalRealm
  else
    match getp config realm (if kpasswd then SRV_KPWD else SRV_KRB) with
    | some v => .ok v
    | none => .ok (.servers [])

/-- Helper of `MetaResolver.__unique` carrying the already-seen set. -/
def uniqueGo {α : Type} [DecidableEq α] : List α → List α → List α
  | _, [] => []
  | seen, x :: xs => if x ∈ seen then uniqueGo seen xs else x :: uniqueGo (x :: seen) xs

/-- `MetaResolver.__unique`: drop duplicates, keeping first occurrences
in order. -/
def uniqueList {α : Type} [DecidableEq α] (l : List α) : List α := uniqueGo [] l

/-- An `IConfig`-style extra source discovered by `MetaResolver.__init__`
(e.g. the MIT krb5.conf adapter), reduced to the two interface methods
the resolver calls. -/
structure ExtraConfig where
  lookupF : List Char → Bool → List String
  realmConfiguredF : List Char → Bool

/-- The extra-config loop of `MetaResolver.lookup` (kdcproxy/config/
__init__.py lines 302-305): the first source whose deduplicated lookup
is non-empty supplies the servers. -/
def extrasFirst (extras : List ExtraConfig) (realm : List Char) (kp : Bool) :
    Option (List String) :=
  extras.findSome? (fun c =>
    let s := uniqueList (c.lookupF realm kp)
    if s ≠ [] then some s else none)

/-- `MetaResolver.__realm_configured`: the main config, then any extra
source. -/
def metaRealmConfigured (config : KConfig) (extras : List ExtraConfig)
    (realm : List Char) : Except CfgErr Bool :=
  match realm_configured config realm with
  | .error e => .error e
  | .ok true => .ok true
  | .ok false => .ok (extras.any (fun c => c.realmConfiguredF realm))

/-- The right operand of the `and` in `MetaResolver.__dns_discovery_allowed`:
`self.__config.param(realm, 'use_dns')`, coerced to its truthiness. -/
def andUseDns (config : KConfig) (realm : List Char) : Except CfgErr Bool :=
  match param config (some realm) "use_dns".toList with
  | .error e => .error e
  | .ok v => .ok v.truthy

/-- `MetaResolver.__dns_discovery_allowed` (kdcproxy/config/__init__.py
lines 290-295): `(realm_configured_in_any_source OR
param(None, 'dns_realm_discovery')) AND param(realm, 'use_dns')`, with
Python's short-circuiting (`use_dns` is not consulted when the left side
is falsy). -/
def dnsDiscoveryAllowed (config : KConfig) (extras : List ExtraConfig)
    (realm : List Char) : Except CfgErr Bool :=
  match metaRealmConfigured config extras realm with
  | .error e => .error e
  | .ok true => andUseDns config realm
  | .ok false =>
    match param config none "dns_realm_discovery".toList with
    | .error e => .error e
    | .ok v => if v.truthy then andUseDns config realm else .ok false

/-- `MetaResolver.lookup` (kdcproxy/config/__init__.py lines 297-314),
with the DNS SRV resolver abstracted as the function `dns`; the returned
Bool records whether the DNS resolver was consulted (an SRV query
issued). -/
def metaResolverLookup (config : KConfig) (extras : List ExtraConfig)
    (dns : List Char → Bool → List String) (realm : List Char) (kp : Bool) :
    Except CfgErr (List String × Bool) :=
  match cfg_lookup config realm kp with
  | .error e => .error e
  | .ok v =>
    if uniqueList v.asServers ≠ [] then .ok (uniqueList v.asServers, false)
    else
      match extrasFirst extras realm kp with
      | some s => .ok (s, false)
      | none =>
        match dnsDiscoveryAllowed config extras realm with
        | .error e => .error e
        | .ok true => .ok (uniqueList (dns realm kp), true)
        | .ok false => .ok (([] : List String), false)

/-- A configuration with a realm section carrying configured servers. -/
def c2ConfigServers : KConfig :=
  [("EXAMPLE.COM".toList, [(SRV_KRB, Val.servers ["kerberos://k1"])])]

/-- A configuration with only `[global] dns_realm_discovery = true`. -/
def c2ConfigOpen : KConfig :=
  [(GLOBAL, [("dns_realm_discovery".toList, Val.b true)])]

/-- A stand-in DNS SRV resolver returning one fixed URI. -/
def dnsStub : List Char → Bool → List String := fun _ _ => ["kerberos://dns-kdc"]

theorem extrasFirst_none_iff (extras : List ExtraConfig) (realm : List Char)
    (kp : Bool) :
    extrasFirst extras realm kp = none ↔
      ∀ e ∈ extras, uniqueList (e.lookupF realm kp) = [] := by
  rw [extrasFirst, List.findSome?_eq_none_iff]
  constructor
  · intro h e he
    have := h e he
    by_cases hc : uniqueList (e.lookupF realm kp) = []
    · exact hc
    · simp [hc] at this
  · intro h e he
    simp [h e he]

end Kdcproxy

namespace Kdcproxy

/-- Claim C2, counterexample — the claimed "if and only if" fails: for a
realm with configured servers (`c2ConfigServers`) the DNS-discovery gate
is true (realm configured, `use_dns` defaults to true), yet
`MetaResolver.lookup` returns the configured servers without consulting
the DNS resolver at all. -/
theorem c2_dns_gate_counterexample :
    dnsDiscoveryAllowed c2ConfigServers [] "EXAMPLE.COM".toList = .ok true
    ∧ metaResolverLookup c2ConfigServers [] dnsStub "EXAMPLE.COM".toList false =
        .ok (["kerberos://k1"], false) := by
  decide

theorem metaResolverLookup_ok (config : KConfig) (extras : List ExtraConfig)
    (dns : List Char → Bool → List String) (realm : List Char) (kp : Bool) (v : Val)
    (hv : cfg_lookup config realm kp = .ok v) :
    metaResolverLookup config extras dns realm kp =
      if uniqueList v.asServers ≠ [] then .ok (uniqueList v.asServers, false)
      else
        match extrasFirst extras realm kp with
        | some s => .ok (s, false)
        | none =>
          match dnsDiscoveryAllowed config extras realm with
          | .error e => .error e
          | .ok true => .ok (uniqueList (dns realm kp), true)
          | .ok false => .ok (([] : List String), false) := by
  rw [metaResolverLookup, hv]

/-- Claim C2 as amended — `MetaResolver.lookup` consults the DNS SRV
resolver iff no earlier source produced servers AND the gate
`(realm_configured_in_any_source OR dns_realm_discovery) AND use_dns`
holds (first conjunct); in particular when `use_dns` is falsy for the
realm no SRV query is issued (second conjunct); and "no extra source
produced servers" means every extra source's deduplicated lookup was
empty (third conjunct). -/
theorem c2_dns_gate (config : KConfig) (extras : List ExtraConfig)
    (dns : List Char → Bool → List String) (realm : List Char) (kp : Bool)
    (v : Val) (s : List String) (c : Bool)
    (hv : cfg_lookup config realm kp = .ok v)
    (hm : metaResolverLookup config extras dns realm kp = .ok (s, c)) :
    (c = true ↔ (uniqueList v.asServers = []
      ∧ extrasFirst extras realm kp = none
      ∧ dnsDiscoveryAllowed config extras realm = .ok true))
    ∧ (∀ u, param config (some realm) "use_dns".toList = .ok u → u.truthy = false →
        c = false)
    ∧ (extrasFirst extras realm kp = none ↔
        ∀ e ∈ extras, uniqueList (e.lookupF realm kp) = []) := by
  rw [metaResolverLookup_ok config extras dns realm kp v hv] at hm
  have hiff : c = true ↔ (uniqueList v.asServers = []
      ∧ extrasFirst extras realm kp = none
      ∧ dnsDiscoveryAllowed config extras realm = .ok true) := by
    by_cases hs : uniqueList v.asServers = []
    · rw [if_neg (by simp [hs])] at hm
      cases he : extrasFirst extras realm kp with
      | some s2 =>
        rw [he] at hm
        have hc2 : false = c := congrArg Prod.snd (Except.ok.inj hm)
        constructor
        · intro hct
          rw [hct] at hc2
          exact absurd hc2 (by simp)
        · rintro ⟨_, hnone, _⟩
          exact absurd hnone (by simp)
      | none =>
        rw [he] at hm
        cases hall : dnsDiscoveryAllowed config extras realm with
        | error e =>
          rw [hall] at hm
          exact absurd
            (show (Except.error e : Except CfgErr (List String × Bool)) = .ok (s, c) from hm)
            (by simp)
        | ok b =>
          rw [hall] at hm
          cases b with
          | true =>
            have hc2 : true = c := congrArg Prod.snd (Except.ok.inj hm)
            simp [← hc2, hs, he, hall]
          | false =>
            have hc2 : false = c := congrArg Prod.snd (Except.ok.inj hm)
            constructor
            · intro hct
              rw [hct] at hc2
              exact absurd hc2 (by simp)
            · rintro ⟨_, _, htrue⟩
              exact absurd htrue (by simp)
    · rw [if_pos hs] at hm
      have hc2 : false = c := congrArg Prod.snd (Except.ok.inj hm)
      constructor
      · intro hct
        rw [hct] at hc2
        exact absurd hc2 (by simp)
      · rintro ⟨hempty, _, _⟩
        exact absurd hempty hs
  refine ⟨hiff, ?_, extrasFirst_none_iff extras realm kp⟩
  intro u hu hut
  have hand : andUseDns config realm = .ok false := by
    rw [andUseDns, hu]
    show (Except.ok u.truthy : Except CfgErr Bool) = .ok false
    rw [hut]
  cases hc : c with
  | false => rfl
  | true =>
    obtain ⟨_, _, hallow⟩ := hiff.mp hc
    rw [dnsDiscoveryAllowed] at hallow
    cases hmrc : metaRealmConfigured config extras realm with
    | error e =>
      rw [hmrc] at hallow
      exact absurd
        (show (Except.error e : Except CfgErr Bool) = .ok true from hallow) (by simp)
    | ok rcb =>
      rw [hmrc] at hallow
      cases rcb with
      | true =>
        have h2 : andUseDns config realm = .ok true := hallow
        rw [hand] at h2
        exact absurd h2 (by simp)
      | false =>
        cases hpd : param config none "dns_realm_discovery".toList with
        | error e =>
          rw [hpd] at hallow
          exact absurd
            (show (Except.error e : Except CfgErr Bool) = .ok true from hallow) (by simp)
        | ok vd =>
          rw [hpd] at hallow
          have h3 : (if vd.truthy then andUseDns config realm
              else (.ok false : Except CfgErr Bool)) = .ok true := hallow
          by_cases hvt : vd.truthy = true
          · rw [if_pos hvt, hand] at h3
            exact absurd h3 (by simp)
          · rw [if_neg hvt] at h3
            exact absurd h3 (by simp)

/-- Witness for the amended C2 with an open-discovery configuration
(`dns_realm_discovery = true`, unconfigured realm): the resolver does
consult DNS, and the theorem recovers that all three gate components
held. -/
theorem c2_dns_gate_witness :
    uniqueList (Val.servers ([] : List String)).asServers = []
    ∧ extrasFirst [] "UNCONF.TEST".toList false = none
    ∧ dnsDiscoveryAllowed c2ConfigOpen [] "UNCONF.TEST".toList = .ok true :=
  (c2_dns_gate c2ConfigOpen [] dnsStub "UNCONF.TEST".toList false
    (.servers []) ["kerberos://dns-kdc"] true (by decide) (by decide)).1.mp rfl

end Kdcproxy
